import Mathlib

/-!
Verification of the Wayfarer Exporter userscript (src/wayfarer-exporter.user.js).

The script keeps a spreadsheet-backed planner synchronized with the live state
of a user's Wayfarer submissions.  This file gives a shallow embedding of its
core logic:

* `statusConvertor` — the platform-status normalization table;
* `checkNomination` / `analyzeCandidates` — the reconciliation pass that diffs
  the submission feed against the cached candidate set, including the
  duplicate-placeholder scan run before inserting a new record;
* `processQueue` / `enqueue` / `complete` — the bounded-concurrency upload
  queue with per-task retry.

The source's `S2Helper` computes cell ids and haversine distances with
floating-point trigonometry, which has no kernel-computable embedding.  The
reconciler consumes it only through the two calls `S2Helper.getCellId` and
`S2Helper.getDistance`, so the geometry is abstracted as a `GeoModel`
parameter; coordinates and distances are rationals.  Every theorem about the
reconciler is either parametric in the `GeoModel` or instantiated at an
explicit model standing for a concrete geometric configuration.
-/

namespace Wayfarer

/-- Configuration constants of the script (the `CONFIG` object). -/
def MAX_CONCURRENT_UPLOADS : Nat := 3

/-- Retry budget per upload task (`CONFIG.RETRY_LIMIT`). -/
def RETRY_LIMIT : Nat := 3

/-- `statusConvertor` from the source: a lookup object queried as
`map[status] || status`, so a status that is not a key of the table is
returned unchanged. -/
def statusConvertor (status : String) : String :=
  if status = ("HELD") then ("held")
  else if status = ("NOMINATED") then ("submitted")
  else if status = ("VOTING") then ("submitted")
  else if status = ("REJECTED") then ("rejected")
  else if status = ("DUPLICATE") then ("rejected")
  else if status = ("WITHDRAWN") then ("rejected")
  else if status = ("APPEALED") then ("appealed")
  else status

/-- A submission record from the Wayfarer feed (the fields the reconciler
reads). -/
structure Nomination where
  id : String
  status : String
  title : String
  description : String
  lat : ℚ
  lng : ℚ
deriving DecidableEq

/-- A cached candidate record (the object stored in `this.candidates[id]`). -/
structure Candidate where
  cell17id : String
  title : String
  description : String
  lat : ℚ
  lng : ℚ
  status : String
deriving DecidableEq

/-- `this.candidates` is a plain JS object keyed by submission id; JS objects
iterate string keys in insertion order, so it is embedded as an
insertion-ordered association list with unique keys. -/
abbrev CandidateSet := List (String × Candidate)

/-- A change event handed to `queueUpdate`: a target id plus either the
literal action `delete` or a normalized status. -/
structure EmittedEvent where
  id : String
  action : String
deriving DecidableEq

/-- Abstraction of `S2Helper`: the reconciler only ever calls
`getCellId(lat, lng)` and `getDistance(p1, p2)` (metres).  The real
implementation is floating-point trigonometry (cube-sphere projection and the
haversine formula), so it enters the model as an oracle parameter. -/
structure GeoModel where
  getCellId : ℚ → ℚ → String
  getDistance : ℚ → ℚ → ℚ → ℚ → ℚ

/-- A geometric configuration in which every point falls in cell `cell` and
every pair of points is `d` metres apart. -/
def constGeo (cell : String) (d : ℚ) : GeoModel :=
  ⟨fun _ _ => cell, fun _ _ _ _ => d⟩

/-- Key lookup in the candidate object (`this.candidates[id]`). -/
def lookupCand : CandidateSet → String → Option Candidate
  | [], _ => none
  | (k, c) :: rest, id => if k = id then some c else lookupCand rest id

/-- Key removal (`delete this.candidates[id]`). -/
def eraseCand (cands : CandidateSet) (id : String) : CandidateSet :=
  cands.filter (fun kv => kv.1 != id)

/-- In-place field update of `this.candidates[id]`, preserving insertion
order. -/
def updateCand (cands : CandidateSet) (id : String) (f : Candidate → Candidate) :
    CandidateSet :=
  cands.map (fun kv => if kv.1 = id then (kv.1, f kv.2) else kv)

/-- The statuses under which an unknown id becomes a new record: the array
literal at the head of the new-record branch of `checkNomination`,
`['NOMINATED', 'VOTING', 'HELD', 'APPEALED']`. -/
def trackableStatuses : List String :=
  [("NOMINATED"), ("VOTING"), ("HELD"), ("APPEALED")]

/-- The duplicate-placeholder scan inside the new-record branch of
`checkNomination`: iterate the cached candidates in insertion order; an entry
whose id is in `currentApiIds` is skipped (it is another live submission, not
a manual placeholder); otherwise, if its cell id equals the new submission's
cell id and its distance to the new submission is below 20 metres, a `delete`
event for it is emitted and the entry is dropped.  Returns the surviving
entries (in order) and the emitted delete events (in order). -/
def dupScan (geo : GeoModel) (currentApiIds : List String) (nomination : Nomination)
    (cell17id : String) : CandidateSet → CandidateSet × List EmittedEvent
  | [] => ([], [])
  | (idx, candidate) :: rest =>
    let r := dupScan geo currentApiIds nomination cell17id rest
    if idx ∈ currentApiIds then ((idx, candidate) :: r.1, r.2)
    else if candidate.cell17id = cell17id ∧
        geo.getDistance candidate.lat candidate.lng nomination.lat nomination.lng < 20 then
      (r.1, ⟨idx, ("delete")⟩ :: r.2)
    else ((idx, candidate) :: r.1, r.2)

/-- Result of `checkNomination`: the updated candidate set, the events passed
to `queueUpdate` (in call order), and the boolean the method returns. -/
structure CheckResult where
  candidates : CandidateSet
  events : List EmittedEvent
  changed : Bool
deriving DecidableEq

/-- `checkNomination` from the source: process one submission against the
cached candidate set.

* known id, platform status `ACCEPTED` → delete event, record removed;
* known id, normalized status differs → status updated, update event;
* known id, title or description differs → fields updated, update event;
* known id, no difference → nothing;
* unknown id, status in `trackableStatuses` → duplicate-placeholder scan,
  then the record is inserted (at the end, as a fresh JS object key) and a
  creation event is emitted;
* unknown id otherwise → nothing. -/
def checkNomination (geo : GeoModel) (currentApiIds : List String)
    (cands : CandidateSet) (nomination : Nomination) : CheckResult :=
  let id := nomination.id
  let currentStatus := statusConvertor nomination.status
  match lookupCand cands id with
  | some existing =>
    if nomination.status = ("ACCEPTED") then
      ⟨eraseCand cands id, [⟨id, ("delete")⟩], true⟩
    else if currentStatus ≠ existing.status then
      ⟨updateCand cands id (fun c => { c with status := currentStatus }),
        [⟨id, currentStatus⟩], true⟩
    else if nomination.title ≠ existing.title ∨
        nomination.description ≠ existing.description then
      ⟨updateCand cands id
          (fun c => { c with title := nomination.title,
                             description := nomination.description }),
        [⟨id, currentStatus⟩], true⟩
    else ⟨cands, [], false⟩
  | none =>
    if nomination.status ∈ trackableStatuses then
      let cell17id := geo.getCellId nomination.lat nomination.lng
      let r := dupScan geo currentApiIds nomination cell17id cands
      ⟨r.1 ++ [(id, ⟨cell17id, nomination.title, nomination.description,
                     nomination.lat, nomination.lng, currentStatus⟩)],
        r.2 ++ [⟨id, currentStatus⟩], true⟩
    else ⟨cands, [], false⟩

/-- Result of a reconciliation pass (`analyzeCandidates`): final candidate
set, all emitted events, the `modified` flag, and whether
`saveLocalCandidates` was called (exactly when `modified` is set). -/
structure AnalyzeResult where
  candidates : CandidateSet
  events : List EmittedEvent
  modified : Bool
  saved : Bool
deriving DecidableEq

/-- One iteration of the reconciliation loop of `analyzeCandidates`: thread
the candidate set through `checkNomination`, accumulate the emitted events,
and OR the per-submission change flag into `modified`. -/
def analyzeStep (geo : GeoModel) (currentApiIds : List String)
    (acc : CandidateSet × List EmittedEvent × Bool) (nomination : Nomination) :
    CandidateSet × List EmittedEvent × Bool :=
  let res := checkNomination geo currentApiIds acc.1 nomination
  (res.candidates, acc.2.1 ++ res.events, acc.2.2 || res.changed)

/-- `analyzeCandidates` from the source: build `currentApiIds` once from the
whole batch, run `checkNomination` over each submission in order threading
the candidate set, OR together the per-submission change flags, and persist
the candidate set iff some change occurred. -/
def analyzeCandidates (geo : GeoModel) (stored : CandidateSet)
    (sentNominations : List Nomination) : AnalyzeResult :=
  let currentApiIds := sentNominations.map Nomination.id
  let r := sentNominations.foldl (analyzeStep geo currentApiIds) (stored, ([], false))
  ⟨r.1, r.2.1, r.2.2, r.2.2⟩

/-- The payload of an upload task: the `FormData` fields that identify it
(target id and either `delete` or a normalized status; the extra detail
fields attached for non-delete events do not influence queue behaviour). -/
structure ChangeEvent where
  id : String
  action : String
deriving DecidableEq

/-- A queued upload: the `FormData` object together with the `retries`
counter `queueUpdate` attaches to it (`formData.retries = CONFIG.RETRY_LIMIT`). -/
structure SyncTask where
  retries : Nat
  event : ChangeEvent
deriving DecidableEq

/-- State of the upload queue.  `pending` is `this.queue`; `inFlight` holds
the tasks whose `fetch` has started and not yet settled (its length is
`this.activeUploads`).  The remaining fields are observation traces:
`admitted` records every task for which a `fetch` was issued, `delivered`
those whose promise resolved (the then-branch), `failed` those dropped after
retry exhaustion (reported via `this.log`, the user-visible panel), and
`droppedNoUrl` those discarded because no endpoint URL was stored
(only `console.error`, no re-enqueue, no user-visible log line). -/
structure QueueState where
  pending : List SyncTask
  inFlight : List SyncTask
  admitted : List SyncTask
  delivered : List SyncTask
  failed : List SyncTask
  droppedNoUrl : List SyncTask
deriving DecidableEq

/-- The queue as constructed: everything empty. -/
def initialState : QueueState := ⟨[], [], [], [], [], []⟩

/-- `processQueue` from the source.  One call admits at most one task: if
`activeUploads >= MAX_CONCURRENT_UPLOADS` or the queue is empty it returns;
otherwise it shifts the head of `pending`.  If no endpoint URL is stored the
shifted task is discarded (`console.error`, the active counter is restored)
and the call returns without touching the rest of the queue; otherwise the
task's `fetch` starts and the task is in flight. -/
def processQueue (hasUrl : Bool) (s : QueueState) : QueueState :=
  if MAX_CONCURRENT_UPLOADS ≤ s.inFlight.length then s
  else match s.pending with
    | [] => s
    | t :: rest =>
      if hasUrl then
        { s with pending := rest, inFlight := s.inFlight ++ [t],
                 admitted := s.admitted ++ [t] }
      else
        { s with pending := rest, droppedNoUrl := s.droppedNoUrl ++ [t] }

/-- `queueUpdate` wraps an event into a task with the full retry budget. -/
def queueUpdate (ev : ChangeEvent) : SyncTask := ⟨RETRY_LIMIT, ev⟩

/-- Enqueue: `this.queue.push(formData); this.processQueue()`. -/
def enqueue (hasUrl : Bool) (ev : ChangeEvent) (s : QueueState) : QueueState :=
  processQueue hasUrl { s with pending := s.pending ++ [queueUpdate ev] }

/-- How a settled `fetch` promise is observed by the handlers. -/
inductive Outcome
  /-- The promise resolved with a 2xx response (then-branch). -/
  | ok2xx
  /-- The promise resolved with a non-2xx response; `fetch` only rejects on
  transport errors, so this also runs the then-branch. -/
  | non2xx
  /-- The promise rejected (network/transport error): the catch-branch runs. -/
  | transportError
deriving DecidableEq

/-- The then/catch handlers of the upload `fetch`: on a transport error the
catch handler decrements `formData.retries` and, if still positive, pushes
the same object back onto the tail of `this.queue`, otherwise logs a
user-visible terminal failure; any resolved response (2xx or not) runs the
empty then-handler, discarding the task as a success. -/
def handleOutcome (t : SyncTask) (o : Outcome) (s : QueueState) : QueueState :=
  match o with
  | .transportError =>
    let tRetry : SyncTask := { t with retries := t.retries - 1 }
    if 0 < tRetry.retries then { s with pending := s.pending ++ [tRetry] }
    else { s with failed := s.failed ++ [tRetry] }
  | _ => { s with delivered := s.delivered ++ [t] }

/-- Settlement of the in-flight task at position `i`: the then/catch handler
runs, then the finally-handler decrements `activeUploads` and calls
`processQueue` again. -/
def complete (hasUrl : Bool) (i : Nat) (o : Outcome) (s : QueueState) : QueueState :=
  match s.inFlight.get? i with
  | none => s
  | some t =>
    let s1 := handleOutcome t o s
    processQueue hasUrl { s1 with inFlight := s1.inFlight.eraseIdx i }

/-- An externally observable queue event: a new upload being enqueued, or an
in-flight delivery settling with some outcome. -/
inductive QEvent
  | enq (ev : ChangeEvent)
  | compl (i : Nat) (o : Outcome)
deriving DecidableEq

/-- One queue event. -/
def stepQueue (hasUrl : Bool) (s : QueueState) : QEvent → QueueState
  | .enq ev => enqueue hasUrl ev s
  | .compl i o => complete hasUrl i o s

/-- A whole history of queue events. -/
def runQueue (hasUrl : Bool) (s : QueueState) (evs : List QEvent) : QueueState :=
  evs.foldl (stepQueue hasUrl) s

/-! ## Helper lemmas about the queue model -/

lemma length_eraseIdx_le : ∀ (l : List SyncTask) (i : Nat),
    (l.eraseIdx i).length ≤ l.length
  | [], _ => Nat.le_refl _
  | _ :: xs, 0 => by simp [List.eraseIdx]
  | x :: xs, i + 1 => by
    simp only [List.eraseIdx, List.length_cons]
    exact Nat.succ_le_succ (length_eraseIdx_le xs i)

lemma handleOutcome_inFlight (t : SyncTask) (o : Outcome) (s : QueueState) :
    (handleOutcome t o s).inFlight = s.inFlight := by
  cases o with
  | ok2xx => rfl
  | non2xx => rfl
  | transportError =>
    simp only [handleOutcome]
    split <;> rfl

lemma processQueue_bound (hasUrl : Bool) (s : QueueState)
    (h : s.inFlight.length ≤ MAX_CONCURRENT_UPLOADS) :
    (processQueue hasUrl s).inFlight.length ≤ MAX_CONCURRENT_UPLOADS := by
  unfold processQueue
  by_cases hc : MAX_CONCURRENT_UPLOADS ≤ s.inFlight.length
  · rw [if_pos hc]; exact h
  · rw [if_neg hc]
    cases hp : s.pending with
    | nil => exact h
    | cons t rest =>
      cases hasUrl with
      | false => simpa using h
      | true =>
        simp only [if_true, List.length_append, List.length_cons, List.length_nil]
        omega

lemma enqueue_bound (hasUrl : Bool) (ev : ChangeEvent) (s : QueueState)
    (h : s.inFlight.length ≤ MAX_CONCURRENT_UPLOADS) :
    (enqueue hasUrl ev s).inFlight.length ≤ MAX_CONCURRENT_UPLOADS :=
  processQueue_bound hasUrl _ h

lemma complete_bound (hasUrl : Bool) (i : Nat) (o : Outcome) (s : QueueState)
    (h : s.inFlight.length ≤ MAX_CONCURRENT_UPLOADS) :
    (complete hasUrl i o s).inFlight.length ≤ MAX_CONCURRENT_UPLOADS := by
  unfold complete
  cases hg : s.inFlight.get? i with
  | none => exact h
  | some t =>
    apply processQueue_bound
    show ((handleOutcome t o s).inFlight.eraseIdx i).length ≤ _
    rw [handleOutcome_inFlight]
    exact Nat.le_trans (length_eraseIdx_le _ _) h

lemma runQueue_bound (hasUrl : Bool) :
    ∀ (evs : List QEvent) (s : QueueState),
      s.inFlight.length ≤ MAX_CONCURRENT_UPLOADS →
      (runQueue hasUrl s evs).inFlight.length ≤ MAX_CONCURRENT_UPLOADS := by
  intro evs
  induction evs with
  | nil => intro s h; exact h
  | cons e rest ih =>
    intro s h
    show (runQueue hasUrl (stepQueue hasUrl s e) rest).inFlight.length ≤ _
    apply ih
    cases e with
    | enq ev => exact enqueue_bound hasUrl ev s h
    | compl i o => exact complete_bound hasUrl i o s h

/-! ## Claims about the SyncQueue -/

/-- Claim C5: a task whose delivery always fails with a transport error is
attempted exactly `RETRY_LIMIT` (3) times; after the last failure it is
dropped with its terminal failure reported to the user-visible log, leaving
nothing pending, in flight or delivered.  The final conjunct shows the
re-enqueue after a non-final failure lands at the tail of the pending list:
with tasks `d`, `e` still pending, the retried task ends up behind `e`. -/
theorem claim_C5 (ev : ChangeEvent) :
    (runQueue true initialState
      [.enq ev, .compl 0 .transportError, .compl 0 .transportError,
       .compl 0 .transportError]).admitted.length = RETRY_LIMIT ∧
    (runQueue true initialState
      [.enq ev, .compl 0 .transportError, .compl 0 .transportError,
       .compl 0 .transportError]).failed = [⟨0, ev⟩] ∧
    (runQueue true initialState
      [.enq ev, .compl 0 .transportError, .compl 0 .transportError,
       .compl 0 .transportError]).pending = [] ∧
    (runQueue true initialState
      [.enq ev, .compl 0 .transportError, .compl 0 .transportError,
       .compl 0 .transportError]).inFlight = [] ∧
    (runQueue true initialState
      [.enq ev, .compl 0 .transportError, .compl 0 .transportError,
       .compl 0 .transportError]).delivered = [] ∧
    (runQueue true initialState
      [.enq ⟨("a"), ("s")⟩, .enq ⟨("b"), ("s")⟩, .enq ⟨("c"), ("s")⟩,
       .enq ⟨("d"), ("s")⟩, .enq ⟨("e"), ("s")⟩, .compl 0 .transportError]).pending
      = [queueUpdate ⟨("e"), ("s")⟩, ⟨RETRY_LIMIT - 1, ⟨("a"), ("s")⟩⟩] :=
  ⟨rfl, rfl, rfl, rfl, rfl, by decide⟩

/-- Claim C6: over any history of enqueue/settlement events starting from the
empty queue, the number of in-flight deliveries never exceeds
`MAX_CONCURRENT_UPLOADS`; and whenever `processQueue` admits a task below the
bound, it is exactly the head of the pending list, the tail being left in
order (FIFO admission). -/
theorem claim_C6 (hasUrl : Bool) (evs : List QEvent) :
    (runQueue hasUrl initialState evs).inFlight.length ≤ MAX_CONCURRENT_UPLOADS ∧
    ∀ (s : QueueState) (t : SyncTask) (rest : List SyncTask),
      s.inFlight.length < MAX_CONCURRENT_UPLOADS → s.pending = t :: rest →
      (processQueue true s).pending = rest ∧
      (processQueue true s).inFlight = s.inFlight ++ [t] := by
  constructor
  · exact runQueue_bound hasUrl evs initialState (by decide)
  · intro s t rest hlt hp
    have hnot : ¬ MAX_CONCURRENT_UPLOADS ≤ s.inFlight.length := Nat.not_le.mpr hlt
    unfold processQueue
    rw [if_neg hnot, hp]
    exact ⟨rfl, rfl⟩

/-- Witness for C6 at concrete inputs: a single enqueue respects the bound,
and `processQueue` on a queue holding one pending task admits that task. -/
theorem claim_C6_witness :
    (runQueue true initialState [.enq ⟨("a"), ("s")⟩]).inFlight.length ≤
      MAX_CONCURRENT_UPLOADS ∧
    (([] : List SyncTask).length < MAX_CONCURRENT_UPLOADS ∧
      (processQueue true ⟨[⟨3, ⟨("b"), ("s")⟩⟩], [], [], [], [], []⟩).inFlight
        = [] ++ [⟨3, ⟨("b"), ("s")⟩⟩]) := by
  refine ⟨(claim_C6 true [.enq ⟨("a"), ("s")⟩]).1, by decide, ?_⟩
  exact ((claim_C6 true []).2 ⟨[⟨3, ⟨("b"), ("s")⟩⟩], [], [], [], [], []⟩
    ⟨3, ⟨("b"), ("s")⟩⟩ [] (by decide) rfl).2

/-- Counterexample to claim C7 as stated: settling with a non-2xx response is
NOT treated like a transport failure — on the same one-task queue the two
outcomes produce different states (the non-2xx task is discarded as a
success; the transport-error task has its retry counter decremented and is
re-admitted). -/
theorem claim_C7_counterexample :
    complete true 0 Outcome.non2xx ⟨[], [⟨3, ⟨("x"), ("s")⟩⟩], [], [], [], []⟩ ≠
    complete true 0 Outcome.transportError ⟨[], [⟨3, ⟨("x"), ("s")⟩⟩], [], [], [], []⟩ := by
  decide

/-- Claim C7 amended: a non-2xx response settles the `fetch` promise, so it
runs the empty then-handler exactly as a 2xx response does — the task is
discarded as a success and no retry is consumed; only a rejected promise
(transport error) enters the retry path. -/
theorem claim_C7 (hasUrl : Bool) (i : Nat) (s : QueueState) :
    complete hasUrl i Outcome.non2xx s = complete hasUrl i Outcome.ok2xx s := by
  unfold complete
  cases s.inFlight.get? i <;> rfl

/-- Claim C10: when no endpoint URL is stored, `processQueue` discards the
dequeued head permanently: it is moved to the no-URL discard trace, the
pending tail is untouched, nothing is re-enqueued or admitted, the
user-visible failure log is not written, and no delivery is attempted. -/
theorem claim_C10 (s : QueueState) (t : SyncTask) (rest : List SyncTask)
    (hp : s.pending = t :: rest)
    (hlen : s.inFlight.length < MAX_CONCURRENT_UPLOADS) :
    processQueue false s =
      { s with pending := rest, droppedNoUrl := s.droppedNoUrl ++ [t] } ∧
    (processQueue false s).failed = s.failed ∧
    (processQueue false s).inFlight = s.inFlight ∧
    (processQueue false s).admitted = s.admitted := by
  have hnot : ¬ MAX_CONCURRENT_UPLOADS ≤ s.inFlight.length := Nat.not_le.mpr hlen
  have key : processQueue false s =
      { s with pending := rest, droppedNoUrl := s.droppedNoUrl ++ [t] } := by
    unfold processQueue
    rw [if_neg hnot, hp]
    rfl
  exact ⟨key, by rw [key], by rw [key], by rw [key]⟩

/-- Witness for C10 at a concrete one-task queue with no stored URL. -/
theorem claim_C10_witness :
    processQueue false ⟨[⟨3, ⟨("a"), ("s")⟩⟩], [], [], [], [], []⟩ =
      ⟨[], [], [], [], [], [⟨3, ⟨("a"), ("s")⟩⟩]⟩ :=
  (claim_C10 ⟨[⟨3, ⟨("a"), ("s")⟩⟩], [], [], [], [], []⟩ ⟨3, ⟨("a"), ("s")⟩⟩ []
    rfl (by decide)).1

/-! ## Claims about the status normalization -/

/-- Counterexample to claim C3 as stated: `VOTING` is folded into
`submitted`, not mapped to a separate `voting` bucket, and an unrecognized
platform status (`NIANTIC_REVIEW` is not a key of the table) is returned
unchanged rather than defaulted to `submitted`. -/
theorem claim_C3_counterexample :
    statusConvertor ("VOTING") = ("submitted") ∧
    ¬ statusConvertor ("VOTING") = ("voting") ∧
    statusConvertor ("NIANTIC_REVIEW") = ("NIANTIC_REVIEW") ∧
    ¬ statusConvertor ("NIANTIC_REVIEW") = ("submitted") := by
  decide

/-- Claim C3 amended: the normalization is the many-to-one table
HELD↦held, NOMINATED↦submitted, VOTING↦submitted, REJECTED↦rejected,
DUPLICATE↦rejected, WITHDRAWN↦rejected, APPEALED↦appealed, and any status
that is not a key of the table is passed through unchanged
(`map[status] || status`) — there is no `submitted` default and no separate
`voting` bucket. -/
theorem claim_C3 (s : String)
    (h : s ∉ [("HELD"), ("NOMINATED"), ("VOTING"), ("REJECTED"),
              ("DUPLICATE"), ("WITHDRAWN"), ("APPEALED")]) :
    statusConvertor ("HELD") = ("held") ∧
    statusConvertor ("NOMINATED") = ("submitted") ∧
    statusConvertor ("VOTING") = ("submitted") ∧
    statusConvertor ("REJECTED") = ("rejected") ∧
    statusConvertor ("DUPLICATE") = ("rejected") ∧
    statusConvertor ("WITHDRAWN") = ("rejected") ∧
    statusConvertor ("APPEALED") = ("appealed") ∧
    statusConvertor s = s := by
  simp only [List.mem_cons, List.mem_singleton, not_or] at h
  obtain ⟨h1, h2, h3, h4, h5, h6, h7, -⟩ := h
  refine ⟨by decide, by decide, by decide, by decide, by decide, by decide, by decide, ?_⟩
  simp [statusConvertor, h1, h2, h3, h4, h5, h6, h7]

/-- Witness for C3 at the concrete unrecognized status `ACCEPTED`. -/
theorem claim_C3_witness :
    ("ACCEPTED") ∉ [("HELD"), ("NOMINATED"), ("VOTING"), ("REJECTED"),
                    ("DUPLICATE"), ("WITHDRAWN"), ("APPEALED")] ∧
    statusConvertor ("ACCEPTED") = ("ACCEPTED") :=
  ⟨by decide, (claim_C3 ("ACCEPTED") (by decide)).2.2.2.2.2.2.2⟩

/-! ## Helper lemmas about the duplicate-placeholder scan and the candidate map -/

lemma dupScan_cons (geo : GeoModel) (api : List String) (nomination : Nomination)
    (cell : String) (idx : String) (c : Candidate) (rest : CandidateSet) :
    dupScan geo api nomination cell ((idx, c) :: rest) =
      if idx ∈ api then
        ((idx, c) :: (dupScan geo api nomination cell rest).1,
         (dupScan geo api nomination cell rest).2)
      else if c.cell17id = cell ∧
          geo.getDistance c.lat c.lng nomination.lat nomination.lng < 20 then
        ((dupScan geo api nomination cell rest).1,
         ⟨idx, ("delete")⟩ :: (dupScan geo api nomination cell rest).2)
      else
        ((idx, c) :: (dupScan geo api nomination cell rest).1,
         (dupScan geo api nomination cell rest).2) := rfl

/-- Every delete event emitted by the scan names a cached entry whose id is
outside the current submission id set and which satisfies the cell and
distance conditions. -/
lemma dupScan_events_sound (geo : GeoModel) (api : List String)
    (nomination : Nomination) (cell : String) :
    ∀ (cands : CandidateSet) (e : EmittedEvent),
      e ∈ (dupScan geo api nomination cell cands).2 →
      e.action = ("delete") ∧ e.id ∉ api ∧
      ∃ c : Candidate, (e.id, c) ∈ cands ∧ c.cell17id = cell ∧
        geo.getDistance c.lat c.lng nomination.lat nomination.lng < 20 := by
  intro cands
  induction cands with
  | nil => intro e he; simp [dupScan] at he
  | cons kv rest ih =>
    obtain ⟨idx, c⟩ := kv
    intro e he
    rw [dupScan_cons] at he
    by_cases hapi : idx ∈ api
    · rw [if_pos hapi] at he
      obtain ⟨ha, hna, c2, hc2, hcell, hd⟩ := ih e he
      exact ⟨ha, hna, c2, List.mem_cons_of_mem _ hc2, hcell, hd⟩
    · rw [if_neg hapi] at he
      by_cases hcond : c.cell17id = cell ∧
          geo.getDistance c.lat c.lng nomination.lat nomination.lng < 20
      · rw [if_pos hcond] at he
        rcases List.mem_cons.mp he with rfl | hmem
        · exact ⟨rfl, hapi, c, List.mem_cons_self _ _, hcond.1, hcond.2⟩
        · obtain ⟨ha, hna, c2, hc2, hcell, hd⟩ := ih e hmem
          exact ⟨ha, hna, c2, List.mem_cons_of_mem _ hc2, hcell, hd⟩
      · rw [if_neg hcond] at he
        obtain ⟨ha, hna, c2, hc2, hcell, hd⟩ := ih e he
        exact ⟨ha, hna, c2, List.mem_cons_of_mem _ hc2, hcell, hd⟩

/-- Every cached entry outside the submission id set that meets the cell and
distance conditions gets a delete event. -/
lemma dupScan_events_complete (geo : GeoModel) (api : List String)
    (nomination : Nomination) (cell : String) :
    ∀ (cands : CandidateSet) (idx : String) (c : Candidate),
      (idx, c) ∈ cands → idx ∉ api → c.cell17id = cell →
      geo.getDistance c.lat c.lng nomination.lat nomination.lng < 20 →
      EmittedEvent.mk idx ("delete") ∈ (dupScan geo api nomination cell cands).2 := by
  intro cands
  induction cands with
  | nil => intro idx c h; simp at h
  | cons kv rest ih =>
    obtain ⟨k0, c0⟩ := kv
    intro idx c hmem hapi hcell hd
    rw [dupScan_cons]
    rcases List.mem_cons.mp hmem with heq | hmem2
    · injection heq with h1 h2
      subst h1
      subst h2
      rw [if_neg hapi, if_pos ⟨hcell, hd⟩]
      exact List.mem_cons_self _ _
    · have hrest := ih idx c hmem2 hapi hcell hd
      by_cases hapi0 : k0 ∈ api
      · rw [if_pos hapi0]; exact hrest
      · rw [if_neg hapi0]
        by_cases hcond0 : c0.cell17id = cell ∧
            geo.getDistance c0.lat c0.lng nomination.lat nomination.lng < 20
        · rw [if_pos hcond0]; exact List.mem_cons_of_mem _ hrest
        · rw [if_neg hcond0]; exact hrest

/-- An entry whose id is in the current submission id set survives the scan. -/
lemma dupScan_keeps_api (geo : GeoModel) (api : List String)
    (nomination : Nomination) (cell : String) :
    ∀ (cands : CandidateSet) (idx : String) (c : Candidate),
      idx ∈ api → (idx, c) ∈ cands →
      (idx, c) ∈ (dupScan geo api nomination cell cands).1 := by
  intro cands
  induction cands with
  | nil => intro idx c _ h; simp at h
  | cons kv rest ih =>
    obtain ⟨k0, c0⟩ := kv
    intro idx c hapi hmem
    rw [dupScan_cons]
    rcases List.mem_cons.mp hmem with heq | hmem2
    · injection heq with h1 h2
      subst h1
      subst h2
      rw [if_pos hapi]
      exact List.mem_cons_self _ _
    · have hrest := ih idx c hapi hmem2
      by_cases hapi0 : k0 ∈ api
      · rw [if_pos hapi0]; exact List.mem_cons_of_mem _ hrest
      · rw [if_neg hapi0]
        by_cases hcond0 : c0.cell17id = cell ∧
            geo.getDistance c0.lat c0.lng nomination.lat nomination.lng < 20
        · rw [if_pos hcond0]; exact hrest
        · rw [if_neg hcond0]; exact List.mem_cons_of_mem _ hrest

/-- The scan only keeps entries of the original candidate set. -/
lemma dupScan_kept_subset (geo : GeoModel) (api : List String)
    (nomination : Nomination) (cell : String) :
    ∀ (cands : CandidateSet) (p : String × Candidate),
      p ∈ (dupScan geo api nomination cell cands).1 → p ∈ cands := by
  intro cands
  induction cands with
  | nil => intro p h; simp [dupScan] at h
  | cons kv rest ih =>
    obtain ⟨k0, c0⟩ := kv
    intro p hp
    rw [dupScan_cons] at hp
    by_cases hapi0 : k0 ∈ api
    · rw [if_pos hapi0] at hp
      rcases List.mem_cons.mp hp with rfl | hmem
      · exact List.mem_cons_self _ _
      · exact List.mem_cons_of_mem _ (ih p hmem)
    · rw [if_neg hapi0] at hp
      by_cases hcond0 : c0.cell17id = cell ∧
          geo.getDistance c0.lat c0.lng nomination.lat nomination.lng < 20
      · rw [if_pos hcond0] at hp
        exact List.mem_cons_of_mem _ (ih p hp)
      · rw [if_neg hcond0] at hp
        rcases List.mem_cons.mp hp with rfl | hmem
        · exact List.mem_cons_self _ _
        · exact List.mem_cons_of_mem _ (ih p hmem)

/-- With pairwise-distinct keys (a JS object cannot repeat a key), a key
determines its record. -/
lemma keys_nodup_unique :
    ∀ (l : CandidateSet), (l.map Prod.fst).Nodup →
      ∀ (k : String) (a b : Candidate), (k, a) ∈ l → (k, b) ∈ l → a = b := by
  intro l
  induction l with
  | nil => intro _ k a b h; simp at h
  | cons kv rest ih =>
    obtain ⟨k0, c0⟩ := kv
    intro hnd k a b ha hb
    simp only [List.map_cons, List.nodup_cons] at hnd
    rcases List.mem_cons.mp ha with heqa | hma
    · injection heqa with ha1 ha2
      subst ha1
      subst ha2
      rcases List.mem_cons.mp hb with heqb | hmb
      · injection heqb with hb1 hb2
        exact hb2.symm
      · exact absurd (List.mem_map_of_mem Prod.fst hmb) hnd.1
    · rcases List.mem_cons.mp hb with heqb | hmb
      · injection heqb with hb1 hb2
        subst hb1
        subst hb2
        exact absurd (List.mem_map_of_mem Prod.fst hma) hnd.1
      · exact ih hnd.2 k a b hma hmb

/-- `lookupCand` finds nothing exactly when no entry carries the key. -/
lemma lookupCand_eq_none_iff :
    ∀ (l : CandidateSet) (k : String),
      lookupCand l k = none ↔ ∀ p ∈ l, p.1 ≠ k := by
  intro l
  induction l with
  | nil => intro k; simp [lookupCand]
  | cons kv rest ih =>
    obtain ⟨k0, c0⟩ := kv
    intro k
    by_cases hk : k0 = k
    · subst hk
      simp [lookupCand, ih]
    · simp [lookupCand, hk, ih]

/-- Looking up past a prefix that does not hold the key. -/
lemma lookupCand_append_of_none (l1 l2 : CandidateSet) (k : String)
    (h : lookupCand l1 k = none) :
    lookupCand (l1 ++ l2) k = lookupCand l2 k := by
  induction l1 with
  | nil => rfl
  | cons kv rest ih =>
    obtain ⟨k0, c0⟩ := kv
    by_cases hk : k0 = k
    · exfalso
      have := (lookupCand_eq_none_iff _ _).mp h (k0, c0) (List.mem_cons_self _ _)
      exact this hk
    · show lookupCand ((k0, c0) :: (rest ++ l2)) k = _
      have hrest : lookupCand rest k = none := by
        rw [lookupCand_eq_none_iff]
        intro p hp
        exact (lookupCand_eq_none_iff _ _).mp h p (List.mem_cons_of_mem _ hp)
      simp only [lookupCand, if_neg hk]
      exact ih hrest

/-- After `delete this.candidates[id]` the key is gone. -/
lemma lookupCand_erase_self (l : CandidateSet) (k : String) :
    lookupCand (eraseCand l k) k = none := by
  rw [lookupCand_eq_none_iff]
  intro p hp
  have := List.of_mem_filter hp
  simpa using this

/-- A trackable platform status never normalizes to the `delete` action. -/
lemma statusConvertor_trackable_ne_delete (s : String) (h : s ∈ trackableStatuses) :
    statusConvertor s ≠ ("delete") := by
  fin_cases h <;> decide

/-- A trackable platform status never normalizes to `potential`. -/
lemma statusConvertor_trackable_ne_potential (s : String) (h : s ∈ trackableStatuses) :
    statusConvertor s ≠ ("potential") := by
  fin_cases h <;> decide

/-- The new-record branch of `checkNomination`, spelled out. -/
lemma checkNomination_new (geo : GeoModel) (api : List String) (cands : CandidateSet)
    (nomination : Nomination)
    (hNone : lookupCand cands nomination.id = none)
    (htr : nomination.status ∈ trackableStatuses) :
    checkNomination geo api cands nomination =
      ⟨(dupScan geo api nomination (geo.getCellId nomination.lat nomination.lng) cands).1
         ++ [(nomination.id,
              ⟨geo.getCellId nomination.lat nomination.lng, nomination.title,
               nomination.description, nomination.lat, nomination.lng,
               statusConvertor nomination.status⟩)],
       (dupScan geo api nomination (geo.getCellId nomination.lat nomination.lng) cands).2
         ++ [⟨nomination.id, statusConvertor nomination.status⟩], true⟩ := by
  simp only [checkNomination, hNone]
  rw [if_pos htr]

/-- The ignore branch of `checkNomination`: unknown id, untracked status. -/
lemma checkNomination_not_tracked (geo : GeoModel) (api : List String)
    (cands : CandidateSet) (nomination : Nomination)
    (hNone : lookupCand cands nomination.id = none)
    (htr : nomination.status ∉ trackableStatuses) :
    checkNomination geo api cands nomination = ⟨cands, [], false⟩ := by
  simp only [checkNomination, hNone]
  rw [if_neg htr]

/-- The no-difference branch of `checkNomination`: a known id with identical
normalized status, title and description (and not `ACCEPTED`) changes
nothing and emits nothing. -/
lemma checkNomination_no_change (geo : GeoModel) (api : List String)
    (cands : CandidateSet) (nomination : Nomination) (c : Candidate)
    (hsome : lookupCand cands nomination.id = some c)
    (hnacc : nomination.status ≠ ("ACCEPTED"))
    (hst : statusConvertor nomination.status = c.status)
    (hti : nomination.title = c.title)
    (hde : nomination.description = c.description) :
    checkNomination geo api cands nomination = ⟨cands, [], false⟩ := by
  have h1 : ¬(statusConvertor nomination.status ≠ c.status) := fun hh => hh hst
  have h2 : ¬(nomination.title ≠ c.title ∨ nomination.description ≠ c.description) := by
    rintro (hh | hh)
    · exact hh hti
    · exact hh hde
  simp only [checkNomination, hsome]
  rw [if_neg hnacc, if_neg h1, if_neg h2]

/-! ## Claims about the Reconciler -/

/-- Counterexample to claim C1 as stated: a cached `potential` placeholder in
the same cell as the new submission, with a DIFFERENT title and 8 metres
away (the geometry oracle reports the same cell for both points and a
distance of 8 m).  The claim says it must survive (8 m exceeds the 3 m
cross-title threshold); the code deletes it — the scan uses a single 20 m
threshold and never consults title or status. -/
theorem claim_C1_counterexample :
    (checkNomination (constGeo ("cellX") 8) [("new1")]
      [(("old1"), ⟨("cellX"), ("Park Bench"), ("d"), 0, 0, ("potential")⟩)]
      ⟨("new1"), ("NOMINATED"), ("Other Name"), ("d2"), 0, 0⟩).events
    = [⟨("old1"), ("delete")⟩, ⟨("new1"), ("submitted")⟩] ∧
    lookupCand (checkNomination (constGeo ("cellX") 8) [("new1")]
      [(("old1"), ⟨("cellX"), ("Park Bench"), ("d"), 0, 0, ("potential")⟩)]
      ⟨("new1"), ("NOMINATED"), ("Other Name"), ("d2"), 0, 0⟩).candidates ("old1")
    = none := by
  decide

/-- Claim C1 amended: on the new-record path, for a cached entry not in the
current submission id set, a delete event is emitted if and only if its cell
id equals the new submission's cell id and its distance to the new
submission is under 20 metres — the candidate's status and title are not
consulted (there is no `potential` filter and no 10 m / 3 m asymmetric
threshold). -/
theorem claim_C1 (geo : GeoModel) (api : List String) (cands : CandidateSet)
    (nomination : Nomination) (idx : String) (c : Candidate)
    (hnd : (cands.map Prod.fst).Nodup)
    (hNone : lookupCand cands nomination.id = none)
    (htr : nomination.status ∈ trackableStatuses)
    (hmem : (idx, c) ∈ cands)
    (hapi : idx ∉ api) :
    EmittedEvent.mk idx ("delete") ∈ (checkNomination geo api cands nomination).events ↔
      (c.cell17id = geo.getCellId nomination.lat nomination.lng ∧
       geo.getDistance c.lat c.lng nomination.lat nomination.lng < 20) := by
  rw [checkNomination_new geo api cands nomination hNone htr]
  constructor
  · intro hm
    rcases List.mem_append.mp hm with hd | hcr
    · obtain ⟨-, -, c2, hc2, hcell, hdist⟩ :=
        dupScan_events_sound geo api nomination _ cands _ hd
      have hcc : c2 = c := keys_nodup_unique cands hnd idx c2 c hc2 hmem
      subst hcc
      exact ⟨hcell, hdist⟩
    · exfalso
      have heq := List.mem_singleton.mp hcr
      have hact : ("delete") = statusConvertor nomination.status :=
        congrArg EmittedEvent.action heq
      exact statusConvertor_trackable_ne_delete _ htr hact.symm
  · intro hc
    exact List.mem_append_left _
      (dupScan_events_complete geo api nomination _ cands idx c hmem hapi hc.1 hc.2)

/-- Witness for C1 at the concrete 8-metre same-cell configuration: the
delete event is emitted. -/
theorem claim_C1_witness :
    EmittedEvent.mk ("old1") ("delete") ∈
      (checkNomination (constGeo ("cellX") 8) [("new1")]
        [(("old1"), ⟨("cellX"), ("Park Bench"), ("d"), 0, 0, ("potential")⟩)]
        ⟨("new1"), ("NOMINATED"), ("Other Name"), ("d2"), 0, 0⟩).events :=
  (claim_C1 (constGeo ("cellX") 8) [("new1")]
    [(("old1"), ⟨("cellX"), ("Park Bench"), ("d"), 0, 0, ("potential")⟩)]
    ⟨("new1"), ("NOMINATED"), ("Other Name"), ("d2"), 0, 0⟩ ("old1")
    ⟨("cellX"), ("Park Bench"), ("d"), 0, 0, ("potential")⟩
    (by decide) (by decide) (by decide) (by decide) (by decide)).mpr
    ⟨rfl, by decide⟩

/-- Claim C2 (anti-self-deletion): on the new-record path, with the current
submission id set built from the whole batch, the duplicate-placeholder scan
never emits a delete event for an id belonging to the batch and never
removes that id's cached record, regardless of cell match and distance. -/
theorem claim_C2 (geo : GeoModel) (noms : List Nomination) (cands : CandidateSet)
    (nomination : Nomination) (id : String)
    (hid : id ∈ noms.map Nomination.id)
    (hNone : lookupCand cands nomination.id = none) :
    EmittedEvent.mk id ("delete") ∉
      (checkNomination geo (noms.map Nomination.id) cands nomination).events ∧
    ∀ c : Candidate, (id, c) ∈ cands →
      (id, c) ∈ (checkNomination geo (noms.map Nomination.id) cands nomination).candidates := by
  by_cases htr : nomination.status ∈ trackableStatuses
  · rw [checkNomination_new geo _ cands nomination hNone htr]
    constructor
    · intro hmem
      rcases List.mem_append.mp hmem with hd | hcr
      · exact (dupScan_events_sound geo _ nomination _ cands _ hd).2.1 hid
      · have heq := List.mem_singleton.mp hcr
        have hact : ("delete") = statusConvertor nomination.status :=
          congrArg EmittedEvent.action heq
        exact statusConvertor_trackable_ne_delete _ htr hact.symm
    · intro c hc
      exact List.mem_append_left _
        (dupScan_keeps_api geo _ nomination _ cands id c hid hc)
  · rw [checkNomination_not_tracked geo _ cands nomination hNone htr]
    exact ⟨by simp, fun c hc => hc⟩

/-- Witness for C2: the batch holds submissions `n1` and `n2`; `n2` is
already cached, in the same cell as the new submission `n1` and only 8 m
away, yet it is neither deleted nor removed. -/
theorem claim_C2_witness :
    EmittedEvent.mk ("n2") ("delete") ∉
      (checkNomination (constGeo ("c") 8)
        ([⟨("n1"), ("NOMINATED"), ("T"), ("D"), 0, 0⟩,
          ⟨("n2"), ("VOTING"), ("U"), ("E"), 0, 0⟩].map Nomination.id)
        [(("n2"), ⟨("c"), ("U"), ("E"), 0, 0, ("submitted")⟩)]
        ⟨("n1"), ("NOMINATED"), ("T"), ("D"), 0, 0⟩).events ∧
    (("n2"), (⟨("c"), ("U"), ("E"), 0, 0, ("submitted")⟩ : Candidate)) ∈
      (checkNomination (constGeo ("c") 8)
        ([⟨("n1"), ("NOMINATED"), ("T"), ("D"), 0, 0⟩,
          ⟨("n2"), ("VOTING"), ("U"), ("E"), 0, 0⟩].map Nomination.id)
        [(("n2"), ⟨("c"), ("U"), ("E"), 0, 0, ("submitted")⟩)]
        ⟨("n1"), ("NOMINATED"), ("T"), ("D"), 0, 0⟩).candidates := by
  have h := claim_C2 (constGeo ("c") 8)
    [⟨("n1"), ("NOMINATED"), ("T"), ("D"), 0, 0⟩,
     ⟨("n2"), ("VOTING"), ("U"), ("E"), 0, 0⟩]
    [(("n2"), ⟨("c"), ("U"), ("E"), 0, 0, ("submitted")⟩)]
    ⟨("n1"), ("NOMINATED"), ("T"), ("D"), 0, 0⟩ ("n2") (by decide) (by decide)
  exact ⟨h.1, h.2 ⟨("c"), ("U"), ("E"), 0, 0, ("submitted")⟩ (by decide)⟩

/-- Counterexample to claim C4 as stated: an unknown-id submission with
status `NIANTIC_REVIEW` is claimed to produce a new record and a creation
event; the code's trackable set is only
`['NOMINATED', 'VOTING', 'HELD', 'APPEALED']`, so nothing happens. -/
theorem claim_C4_counterexample :
    checkNomination (constGeo ("c") 8) [("n1")] []
      ⟨("n1"), ("NIANTIC_REVIEW"), ("T"), ("D"), 0, 0⟩ = ⟨[], [], false⟩ := by
  decide

/-- Claim C4 amended: for an unknown id, a new record is inserted and a
creation event emitted exactly when the platform status is in
{NOMINATED, VOTING, HELD, APPEALED} (NIANTIC_REVIEW is NOT trackable and is
ignored); when inserted, the record carries the normalized status, which is
never `potential`. -/
theorem claim_C4 (geo : GeoModel) (api : List String) (cands : CandidateSet)
    (nomination : Nomination)
    (hNone : lookupCand cands nomination.id = none) :
    (nomination.status ∈ trackableStatuses →
      (checkNomination geo api cands nomination).changed = true ∧
      lookupCand (checkNomination geo api cands nomination).candidates nomination.id =
        some ⟨geo.getCellId nomination.lat nomination.lng, nomination.title,
              nomination.description, nomination.lat, nomination.lng,
              statusConvertor nomination.status⟩ ∧
      EmittedEvent.mk nomination.id (statusConvertor nomination.status) ∈
        (checkNomination geo api cands nomination).events ∧
      statusConvertor nomination.status ≠ ("potential")) ∧
    (nomination.status ∉ trackableStatuses →
      checkNomination geo api cands nomination = ⟨cands, [], false⟩) := by
  constructor
  · intro htr
    rw [checkNomination_new geo api cands nomination hNone htr]
    refine ⟨rfl, ?_, ?_, statusConvertor_trackable_ne_potential _ htr⟩
    · have h1 : lookupCand
          (dupScan geo api nomination (geo.getCellId nomination.lat nomination.lng) cands).1
          nomination.id = none := by
        rw [lookupCand_eq_none_iff]
        intro p hp
        exact (lookupCand_eq_none_iff cands nomination.id).mp hNone p
          (dupScan_kept_subset geo api nomination _ cands p hp)
      rw [lookupCand_append_of_none _ _ _ h1]
      simp [lookupCand]
    · exact List.mem_append_right _ (List.mem_singleton_self _)
  · intro htr
    exact checkNomination_not_tracked geo api cands nomination hNone htr

/-- Witness for C4: a NOMINATED submission with unknown id is inserted with
normalized status `submitted` and reported changed. -/
theorem claim_C4_witness :
    ("NOMINATED") ∈ trackableStatuses ∧
    (checkNomination (constGeo ("c") 8) [("n1")] []
      ⟨("n1"), ("NOMINATED"), ("T"), ("D"), 0, 0⟩).changed = true :=
  ⟨by decide,
    ((claim_C4 (constGeo ("c") 8) [("n1")] []
      ⟨("n1"), ("NOMINATED"), ("T"), ("D"), 0, 0⟩ rfl).1 (by decide)).1⟩

/-- Claim C8: a tracked submission turning `ACCEPTED` yields exactly one
delete event and the record's removal; running `checkNomination` again on
the resulting candidate set with the same submission finds an unknown id
with an untracked status and does nothing (idempotence). -/
theorem claim_C8 (geo : GeoModel) (api : List String) (cands : CandidateSet)
    (nomination : Nomination) (c : Candidate)
    (hsome : lookupCand cands nomination.id = some c)
    (hacc : nomination.status = ("ACCEPTED")) :
    (checkNomination geo api cands nomination).events =
      [EmittedEvent.mk nomination.id ("delete")] ∧
    (checkNomination geo api cands nomination).changed = true ∧
    lookupCand (checkNomination geo api cands nomination).candidates nomination.id = none ∧
    checkNomination geo api (checkNomination geo api cands nomination).candidates nomination =
      ⟨(checkNomination geo api cands nomination).candidates, [], false⟩ := by
  have key : checkNomination geo api cands nomination =
      ⟨eraseCand cands nomination.id, [⟨nomination.id, ("delete")⟩], true⟩ := by
    simp only [checkNomination, hsome]
    rw [if_pos hacc]
  have hlook : lookupCand (eraseCand cands nomination.id) nomination.id = none :=
    lookupCand_erase_self cands nomination.id
  refine ⟨by rw [key], by rw [key], by rw [key]; exact hlook, ?_⟩
  rw [key]
  have hnt : nomination.status ∉ trackableStatuses := by
    rw [hacc]; decide
  exact checkNomination_not_tracked geo api _ nomination hlook hnt

/-- Witness for C8 at a concrete tracked `ACCEPTED` submission. -/
theorem claim_C8_witness :
    (checkNomination (constGeo ("c") 8) [("x")]
      [(("x"), ⟨("c"), ("T"), ("D"), 0, 0, ("submitted")⟩)]
      ⟨("x"), ("ACCEPTED"), ("T"), ("D"), 0, 0⟩).events =
      [EmittedEvent.mk ("x") ("delete")] :=
  (claim_C8 (constGeo ("c") 8) [("x")]
    [(("x"), ⟨("c"), ("T"), ("D"), 0, 0, ("submitted")⟩)]
    ⟨("x"), ("ACCEPTED"), ("T"), ("D"), 0, 0⟩
    ⟨("c"), ("T"), ("D"), 0, 0, ("submitted")⟩ (by decide) rfl).1

/-- The reconciliation fold leaves everything unchanged when every
submission in the batch matches its cached record. -/
lemma analyze_foldl_no_change (geo : GeoModel) (api : List String)
    (stored : CandidateSet) :
    ∀ (noms : List Nomination) (evs : List EmittedEvent) (m : Bool),
      (∀ nom ∈ noms, nom.status ≠ ("ACCEPTED") ∧
        ∃ c : Candidate, lookupCand stored nom.id = some c ∧
          statusConvertor nom.status = c.status ∧ nom.title = c.title ∧
          nom.description = c.description) →
      noms.foldl (analyzeStep geo api) (stored, (evs, m)) = (stored, (evs, m)) := by
  intro noms
  induction noms with
  | nil => intro evs m _; rfl
  | cons nom rest ih =>
    intro evs m h
    obtain ⟨hnacc, c, hsome, hst, hti, hde⟩ := h nom (List.mem_cons_self _ _)
    rw [List.foldl_cons]
    have hstep : analyzeStep geo api (stored, (evs, m)) nom = (stored, (evs, m)) := by
      unfold analyzeStep
      rw [checkNomination_no_change geo api stored nom c hsome hnacc hst hti hde]
      simp
    rw [hstep]
    exact ih evs m (fun n hn => h n (List.mem_cons_of_mem _ hn))

/-- Claim C9: a reconciliation pass over a batch in which every submission is
already cached with identical normalized status, title and description (and
none is `ACCEPTED`) emits no events, leaves the candidate set untouched and
does not write the store; and in every pass the store is written exactly
when some change occurred (at most one write per pass). -/
theorem claim_C9 (geo : GeoModel) (stored : CandidateSet) (noms : List Nomination)
    (h : ∀ nom ∈ noms, nom.status ≠ ("ACCEPTED") ∧
      ∃ c : Candidate, lookupCand stored nom.id = some c ∧
        statusConvertor nom.status = c.status ∧ nom.title = c.title ∧
        nom.description = c.description) :
    analyzeCandidates geo stored noms = ⟨stored, [], false, false⟩ ∧
    ∀ (geoR : GeoModel) (st : CandidateSet) (nm : List Nomination),
      (analyzeCandidates geoR st nm).saved = (analyzeCandidates geoR st nm).modified := by
  constructor
  · simp only [analyzeCandidates]
    rw [analyze_foldl_no_change geo (noms.map Nomination.id) stored noms [] false h]
  · intro geoR st nm
    rfl

/-- Witness for C9 at a concrete unchanged batch of one submission. -/
theorem claim_C9_witness :
    analyzeCandidates (constGeo ("c") 8)
      [(("x"), ⟨("c"), ("T"), ("D"), 0, 0, ("submitted")⟩)]
      [⟨("x"), ("NOMINATED"), ("T"), ("D"), 0, 0⟩] =
      ⟨[(("x"), ⟨("c"), ("T"), ("D"), 0, 0, ("submitted")⟩)], [], false, false⟩ := by
  have h := claim_C9 (constGeo ("c") 8)
    [(("x"), ⟨("c"), ("T"), ("D"), 0, 0, ("submitted")⟩)]
    [⟨("x"), ("NOMINATED"), ("T"), ("D"), 0, 0⟩]
    (by
      intro nom hn
      rw [List.mem_singleton] at hn
      subst hn
      exact ⟨by decide, ⟨("c"), ("T"), ("D"), 0, 0, ("submitted")⟩, by decide, by decide,
        rfl, rfl⟩)
  exact h.1

end Wayfarer
